import Mathlib

/-!
Verification of the git repository synchronization core
(`manic/repository_git.py`, class `GitRepository`).

The source is shallowly embedded: text is modelled as `List Char`, the
injected "run a git command, capture status/output" capability is modelled
as an environment `GitEnv` of per-command results, fatal process
termination (`fatal_error`) and uncaught Python exceptions are modelled as
the `POut.fatal` / `POut.pyerr` outcomes, and the process-wide working
directory is threaded explicitly through the functions that change it.
Every embedded function mirrors the body of the correspondingly named
Python method; the two regular expressions `RE_DETACHED_AT`,
`RE_DETACHED_FROM` and `RE_TRACKING` are implemented as deterministic
matchers that realise exactly the backtracking behaviour of the Python
patterns on their character classes.
-/

/-- Python `\w` character class (ASCII reading): letters, digits, underscore. -/
def isWordChar (c : Char) : Bool :=
  c.isAlphanum || c = '_'

/-- Python `\s` character class: whitespace characters. -/
def isSpaceChar (c : Char) : Bool :=
  c = ' ' || c = '\t' || c = '\n' || c = '\r' || c = '\x0b' || c = '\x0c'

/-- Character class `[\w\-./]` used by the reference-name capture groups. -/
def isRefChar (c : Char) : Bool :=
  isWordChar c || c = '-' || c = '.' || c = '/'

/-- Character class `[\w\s,]` used inside the tracking-annotation pattern. -/
def isTrkChar (c : Char) : Bool :=
  isWordChar c || isSpaceChar c || c = ','

/-- Splits a list at the end of the maximal leading run of characters
satisfying `p` (the run, then the remainder). -/
def takeRun (p : Char → Bool) : List Char → List Char × List Char
  | [] => ([], [])
  | c :: t =>
      if p c then
        let r := takeRun p t
        (c :: r.1, r.2)
      else ([], c :: t)

/-- Matches the literal `lit` at the head of `l`, returning the rest. -/
def dropLit : List Char → List Char → Option (List Char)
  | [], l => some l
  | _, [] => none
  | a :: as, b :: bs => if a = b then dropLit as bs else none

/-- Boolean prefix test on character lists. -/
def startsWithL (lit l : List Char) : Bool :=
  (dropLit lit l).isSome

/-- Substring test: Python `needle in hay`. -/
def containsSub (needle : List Char) : List Char → Bool
  | [] => needle.isEmpty
  | l@(_ :: t) => startsWithL needle l || containsSub needle t

/-- Strips characters satisfying `p` from both ends (Python `str.strip`). -/
def stripBy (p : Char → Bool) (l : List Char) : List Char :=
  ((l.dropWhile p).reverse.dropWhile p).reverse

/-- Python `str.strip()` (whitespace from both ends). -/
def pyStrip (l : List Char) : List Char :=
  stripBy isSpaceChar l

/-- Python `str.split()` helper carrying the current (reversed) word. -/
def pySplitAux : List Char → List Char → List (List Char)
  | [], acc => if acc.isEmpty then [] else [acc.reverse]
  | c :: t, acc =>
      if isSpaceChar c then
        if acc.isEmpty then pySplitAux t [] else acc.reverse :: pySplitAux t []
      else pySplitAux t (c :: acc)

/-- Python `str.split()`: whitespace-separated tokens, no empties. -/
def pySplit (l : List Char) : List (List Char) :=
  pySplitAux l []

/-- Python `str.splitlines()` helper carrying the current (reversed) line. -/
def splitLinesAux : List Char → List Char → List (List Char)
  | [], acc => if acc.isEmpty then [] else [acc.reverse]
  | c :: t, acc =>
      if c = '\n' then acc.reverse :: splitLinesAux t []
      else splitLinesAux t (c :: acc)

/-- Python `str.splitlines()` (modelling `\n` as the line terminator). -/
def splitLines (l : List Char) : List (List Char) :=
  splitLinesAux l []

/-- Python `str.split(sep)` for a single-character separator, keeping
empty pieces, restricted to `/` as used by `_create_remote_name`. -/
def splitOnSlashAux : List Char → List Char → List (List Char)
  | [], acc => [acc.reverse]
  | c :: t, acc =>
      if c = '/' then acc.reverse :: splitOnSlashAux t []
      else splitOnSlashAux t (c :: acc)

/-- Python `url.split('/')`. -/
def splitOnSlash (l : List Char) : List (List Char) :=
  splitOnSlashAux l []

/-- Outcome of running a piece of the Python code: a value, process
termination through `fatal_error(msg)`, or an uncaught Python exception
(such as an `IndexError`). -/
inductive POut (α : Type) where
  | ok (a : α)
  | fatal (msg : List Char)
  | pyerr
  deriving DecidableEq, Repr

/-- Boolean test that a `POut` is a success. -/
def pIsOk {α : Type} : POut α → Bool
  | POut.ok _ => true
  | _ => false

/-! Deterministic matchers for the three compiled patterns of
`GitRepository`. Backtracking of the Python engine collapses to
maximal-run matching on these patterns: each `+`-repetition is followed by
a character outside its class, so only the maximal run can succeed. -/

/-- Consumes the optional group `(?:[\w]+[\s]+)?` greedily: a nonempty
word run followed by a nonempty whitespace run. -/
def optWordWs (l : List Char) : Option (List Char) :=
  let w := takeRun isWordChar l
  if w.1.isEmpty then none
  else
    let s := takeRun isSpaceChar w.2
    if s.1.isEmpty then none else some s.2

/-- Matches `detached at ([\w\-./]+)\)` at the head of `m`, returning the
capture group. -/
def detachedAtTail (m : List Char) : Option (List Char) :=
  match dropLit ("detached at ").data m with
  | none => none
  | some rest =>
      let t := takeRun isRefChar rest
      if t.1.isEmpty then none
      else
        match t.2 with
        | ')' :: _ => some t.1
        | _ => none

/-- Matches the part of `RE_DETACHED_AT` that follows the literal `* (`:
the optional `[\w]+[\s]+` group (tried greedily first) and then
`detached at ([\w\-./]+)\)`. -/
def detachedAtAfterParen (l : List Char) : Option (List Char) :=
  match optWordWs l with
  | some m =>
      match detachedAtTail m with
      | some cap => some cap
      | none => detachedAtTail l
  | none => detachedAtTail l

/-- Search of `RE_DETACHED_AT`, i.e. of
`\* \((?:[\w]+[\s]+)?detached at ([\w\-./]+)\)`, over every start
position of the line, returning match group 1. -/
def re_detached_at_search : List Char → Option (List Char)
  | [] => none
  | c :: t =>
      match dropLit ("* (").data (c :: t) with
      | some r =>
          match detachedAtAfterParen r with
          | some cap => some cap
          | none => re_detached_at_search t
      | none => re_detached_at_search t

/-- Matches `detached from [\w\-./]+\)[\s]+([\w]+)` at the head of `m`,
returning the capture group (the current hash). -/
def detachedFromTail (m : List Char) : Option (List Char) :=
  match dropLit ("detached from ").data m with
  | none => none
  | some rest =>
      let nm := takeRun isRefChar rest
      if nm.1.isEmpty then none
      else
        match nm.2 with
        | ')' :: rest2 =>
            let s := takeRun isSpaceChar rest2
            if s.1.isEmpty then none
            else
              let cap := takeRun isWordChar s.2
              if cap.1.isEmpty then none else some cap.1
        | _ => none

/-- Matches the part of `RE_DETACHED_FROM` that follows the literal `* (`. -/
def detachedFromAfterParen (l : List Char) : Option (List Char) :=
  match optWordWs l with
  | some m =>
      match detachedFromTail m with
      | some cap => some cap
      | none => detachedFromTail l
  | none => detachedFromTail l

/-- Search of `RE_DETACHED_FROM`, i.e. of
`\* \((?:[\w]+[\s]+)?detached from [\w\-./]+\)[\s]+([\w]+)`, over every
start position of the line, returning match group 1. -/
def re_detached_from_search : List Char → Option (List Char)
  | [] => none
  | c :: t =>
      match dropLit ("* (").data (c :: t) with
      | some r =>
          match detachedFromAfterParen r with
          | some cap => some cap
          | none => re_detached_from_search t
      | none => re_detached_from_search t

/-- Matches the part of `RE_TRACKING` that follows the literal `[`:
`([\w\-./]+)(?::[\s]+[\w\s,]+)?\]`. The optional group succeeds exactly
when a `:` is followed by a `[\w\s,]`-run of length at least two that
starts with whitespace and ends right before `]`. -/
def trackingAfterBracket (l : List Char) : Option (List Char) :=
  let t := takeRun isRefChar l
  if t.1.isEmpty then none
  else
    match t.2 with
    | ']' :: _ => some t.1
    | ':' :: rest =>
        let r := takeRun isTrkChar rest
        match r.1, r.2 with
        | c1 :: _ :: _, ']' :: _ => if isSpaceChar c1 then some t.1 else none
        | _, _ => none
    | _ => none

/-- Search of `RE_TRACKING`, i.e. of `\[([\w\-./]+)(?::[\s]+[\w\s,]+)?\]`,
over every start position of the line, returning match group 1. -/
def re_tracking_search : List Char → Option (List Char)
  | [] => none
  | c :: t =>
      if c = '[' then
        match trackingAfterBracket t with
        | some cap => some cap
        | none => re_tracking_search t
      else re_tracking_search t

/-- Modelled from the spec: `EMPTY_STR` of `global_constants` (not under
`src/`), the empty current-reference result that signals "no line marked
active" (spec 4.1: "an empty result if no line is marked active"). -/
def EMPTY_STR : List Char := []

/-- Modelled from the spec: `LOCAL_PATH_INDICATOR` of `global_constants`
(not under `src/`), the sentinel URL meaning "local path only"
(spec 3: "a sentinel meaning local path only"). Its concrete spelling is
irrelevant to the code, which only compares URLs against it. -/
def LOCAL_PATH_INDICATOR : List Char := ['.']

/-- Diagnostic built by `_current_ref` when the "detached at" pattern
fails on the active line. -/
def dev_err_at_msg (ref gitOutput : List Char) : List Char :=
  ("DEV_ERROR: regex to detect \"detached at\" head state failed!").data ++
    (("\nref:\n").data ++ (ref ++ (("\ngit_output\n").data ++ (gitOutput ++ ['\n']))))

/-- Diagnostic built by `_current_ref` when the "detached from" pattern
fails on the active line. -/
def dev_err_from_msg (ref gitOutput : List Char) : List Char :=
  ("DEV_ERROR: regex to detect \"detached from\" head state failed!").data ++
    (("\nref:\n").data ++ (ref ++ (("\ngit_output\n").data ++ (gitOutput ++ ['\n']))))

/-- Diagnostic built by `_current_ref` when the tracking-branch pattern
fails on the active line. -/
def dev_err_track_msg (ref gitOutput : List Char) : List Char :=
  ("DEV_ERROR: regex to detect tracking branch failed.").data ++
    (("\nref:\n").data ++ (ref ++ (("\ngit_output\n").data ++ (gitOutput ++ ['\n']))))

/-- The loop of `_current_ref` that selects the first line starting with
`*` (the active line), or the empty string if there is none. -/
def active_line : List (List Char) → List Char
  | [] => []
  | l :: rest => if startsWithL ['*'] l then l else active_line rest

/-- Head State Parser: the body of `_current_ref` applied to the captured
output of `git branch --verbose --verbose`. Mirrors the dispatch of the
source: empty when no line is active; `'detached at' in ref` selects
`RE_DETACHED_AT`; otherwise `'detached from' in ref` selects
`RE_DETACHED_FROM`; otherwise `'[' in ref` selects `RE_TRACKING`;
otherwise the second whitespace-separated token of the line is taken
(`ref.split()[1]`, an uncaught `IndexError` when it does not exist). A
failing selected pattern is a `fatal_error` carrying the raw line and the
whole output; every success is finally stripped (`current_ref.strip()`). -/
def current_ref_of_output (gitOutput : List Char) : POut (List Char) :=
  let ref := active_line (splitLines gitOutput)
  let res : POut (List Char) :=
    if ref.isEmpty then POut.ok EMPTY_STR
    else if containsSub ("detached at").data ref then
      match re_detached_at_search ref with
      | some cap => POut.ok cap
      | none => POut.fatal (dev_err_at_msg ref gitOutput)
    else if containsSub ("detached from").data ref then
      match re_detached_from_search ref with
      | some cap => POut.ok cap
      | none => POut.fatal (dev_err_from_msg ref gitOutput)
    else if containsSub ['['] ref then
      match re_tracking_search ref with
      | some cap => POut.ok cap
      | none => POut.fatal (dev_err_track_msg ref gitOutput)
    else
      match (pySplit ref).get? 1 with
      | some tok => POut.ok tok
      | none => POut.pyerr
  match res with
  | POut.ok c => POut.ok (pyStrip c)
  | e => e

/-- Modelled from the spec: the synchronization/cleanliness state
constants of `ExternalStatus` (`externals_status.py`, not under `src/`);
spec 3: "SyncStatus: enumeration OK, MODEL_MODIFIED, ERROR, UNKNOWN,
DIRTY". `DEFAULT` is the state of a freshly created status object. -/
inductive SyncState where
  | DEFAULT
  | STATUS_OK
  | MODEL_MODIFIED
  | STATUS_ERROR
  | UNKNOWN
  | DIRTY
  deriving DecidableEq, Repr

/-- Modelled from the spec: the status-report record of
`externals_status.py` (not under `src/`); spec 3 and 6: sync state enum,
clean/dirty enum, current/expected reference names for display, and the
verbose status text blob. Only the fields written by `GitRepository` are
modelled. -/
structure ExternalStatus where
  sync_state : SyncState := SyncState.DEFAULT
  clean_state : SyncState := SyncState.DEFAULT
  current_version : List Char := []
  expected_version : List Char := []
  status_output : List Char := []
  deriving DecidableEq, Repr

/-- Modelled from the spec: the declared-reference fields a
`GitRepository` inherits from `Repository` (`repository.py`, not under
`src/`); spec 3: remote URL (or the local-path sentinel) and the declared
branch/tag/hash, plus the component name used in diagnostics. Python
truthiness of an unset field is modelled as the empty string. -/
structure RepoDecl where
  name : List Char
  url : List Char
  branch : List Char := []
  tag : List Char := []
  hash : List Char := []
  deriving DecidableEq, Repr

/-- A git invocation issued through the Command Executor Port, identified
by the wrapper of `GitRepository` that builds it. -/
inductive GitCmd where
  | logHash
  | branchVV
  | remoteVerbose
  | showrefTag (ref : List Char)
  | showrefBranch (ref : List Char)
  | lsremoteBranch (ref remoteName : List Char)
  | revparseCommit (ref : List Char)
  | statusPorcelainV1z
  | statusVerbose
  | clone (url dirName : List Char)
  | remoteAdd (name url : List Char)
  | fetch (remoteName : List Char)
  | checkoutRef (ref : List Char)
  deriving DecidableEq, Repr

/-- The Command Executor Port: captured results of the git information
commands, per argument. Existence probes yield shell status codes (zero
for success); output-producing commands yield raw text. -/
structure GitEnv where
  log_hash_out : List Char
  branch_vv_out : List Char
  remote_verbose_out : List Char
  status_porcelain_out : List Char
  status_verbose_out : List Char
  showref_tag : List Char → Nat
  showref_branch : List Char → Nat
  lsremote_branch : List Char → List Char → Nat
  revparse_commit : List Char → Nat × List Char

/-- Wrapper `_git_log_hash`: output of `git log -1 --format="%H"`,
stripped. -/
def git_log_hash (env : GitEnv) : List Char × List GitCmd :=
  (pyStrip env.log_hash_out, [GitCmd.logHash])

/-- Wrapper `_git_branch_vv`: raw output of
`git branch --verbose --verbose`. -/
def git_branch_vv (env : GitEnv) : List Char × List GitCmd :=
  (env.branch_vv_out, [GitCmd.branchVV])

/-- Wrapper `_git_remote_verbose`: raw output of `git remote --verbose`. -/
def git_remote_verbose (env : GitEnv) : List Char × List GitCmd :=
  (env.remote_verbose_out, [GitCmd.remoteVerbose])

/-- Wrapper `_git_showref_tag`: status of
`git show-ref --quiet --verify refs/tags/<ref>`. -/
def git_showref_tag (env : GitEnv) (ref : List Char) : Nat × List GitCmd :=
  (env.showref_tag ref, [GitCmd.showrefTag ref])

/-- Wrapper `_git_showref_branch`: status of
`git show-ref --quiet --verify refs/heads/<ref>`. -/
def git_showref_branch (env : GitEnv) (ref : List Char) : Nat × List GitCmd :=
  (env.showref_branch ref, [GitCmd.showrefBranch ref])

/-- Wrapper `_git_lsremote_branch`: status of
`git ls-remote --exit-code --heads <remote_name> <ref>`. -/
def git_lsremote_branch (env : GitEnv) (ref remoteName : List Char) :
    Nat × List GitCmd :=
  (env.lsremote_branch ref remoteName, [GitCmd.lsremoteBranch ref remoteName])

/-- Wrapper `_git_revparse_commit`: status and stripped output of
`git rev-parse --quiet --verify <ref>^(commit)`. -/
def git_revparse_commit (env : GitEnv) (ref : List Char) :
    (Nat × List Char) × List GitCmd :=
  let r := env.revparse_commit ref
  ((r.1, pyStrip r.2), [GitCmd.revparseCommit ref])

/-- Wrapper `_git_status_porcelain_v1z`: raw output of
`git status --untracked-files=no --porcelain -z`. -/
def git_status_porcelain_v1z (env : GitEnv) : List Char × List GitCmd :=
  (env.status_porcelain_out, [GitCmd.statusPorcelainV1z])

/-- Wrapper `_git_status_verbose`: raw output of `git status`. -/
def git_status_verbose (env : GitEnv) : List Char × List GitCmd :=
  (env.status_verbose_out, [GitCmd.statusVerbose])

/-- Inner helper `compare_refs` of `_check_sync_logic`: equal resolved
references are `STATUS_OK`, different ones `MODEL_MODIFIED`. -/
def compare_refs (current_ref expected_ref : List Char) : SyncState :=
  if current_ref = expected_ref then SyncState.STATUS_OK
  else SyncState.MODEL_MODIFIED

/-- Loop body of `_determine_remote_name` over the split lines of the
`git remote --verbose` output: the first nonblank line whose second
whitespace-separated token equals the declared URL gives the remote name;
a nonblank line without a second token is an uncaught `IndexError`; no
match yields the empty name. -/
def determine_lines : List (List Char) → List Char → POut (List Char)
  | [], _ => POut.ok []
  | line :: rest, url =>
      let ddata := pyStrip line
      if ddata.isEmpty then determine_lines rest url
      else
        match pySplit ddata with
        | nm :: u :: _ =>
            if pyStrip u = url then POut.ok (pyStrip nm)
            else determine_lines rest url
        | _ => POut.pyerr

/-- Body of `_determine_remote_name` as a function of the captured
`git remote --verbose` output and of the declared URL. -/
def determine_remote_name (gitOutput url : List Char) : POut (List Char) :=
  determine_lines (splitLines gitOutput) url

/-- Message of the configuration `fatal_error` of `_check_sync_logic`
when none of branch, hash or tag is set. -/
def config_err_msg (d : RepoDecl) : List Char :=
  ("In repo \"").data ++ d.name ++ ("\": none of branch, hash or tag are set").data

/-- Expected-reference computation of `_check_sync_logic` (lines 266-284):
branch declared and local URL gives the bare branch; branch declared and
remote URL qualifies with the resolved remote name or the
`unknown_remote` placeholder; otherwise the declared hash, then the
declared tag; with none of the three set it is the configuration
`fatal_error`. -/
def expected_ref_of (env : GitEnv) (d : RepoDecl) :
    POut (List Char) × List GitCmd :=
  if d.branch ≠ [] then
    if d.url = LOCAL_PATH_INDICATOR then (POut.ok d.branch, [])
    else
      let rv := git_remote_verbose env
      match determine_remote_name rv.1 d.url with
      | POut.ok remote_name =>
          if remote_name = [] then
            (POut.ok (("unknown_remote/").data ++ d.branch), rv.2)
          else (POut.ok (remote_name ++ '/' :: d.branch), rv.2)
      | POut.fatal m => (POut.fatal m, rv.2)
      | POut.pyerr => (POut.pyerr, rv.2)
  else if d.hash ≠ [] then (POut.ok d.hash, [])
  else if d.tag ≠ [] then (POut.ok d.tag, [])
  else (POut.fatal (config_err_msg d), [])

/-- The current full head hash as `_check_sync_logic` computes it: the
stripped `git log` output with surrounding `"` characters removed. -/
def current_hash (env : GitEnv) : List Char :=
  stripBy (fun c => c = '"') (git_log_hash env).1

/-- Body of `_check_sync_logic`: saves the working directory, switches to
the working copy, reads the current head hash, determines the expected
reference (possibly a configuration `fatal_error`), records the current
and expected reference names, resolves the expected reference to a hash
and compares hashes, and restores the working directory on the
normal-return path. The result carries the outcome, the final working
directory, and the git commands issued in order. -/
def check_sync_logic (env : GitEnv) (d : RepoDecl)
    (repo_dir_path : List Char) (stat : ExternalStatus) (cwd0 : List Char) :
    POut ExternalStatus × List Char × List GitCmd :=
  let lh := git_log_hash env
  let current_ref := stripBy (fun c => c = '"') lh.1
  let exp := expected_ref_of env d
  match exp.1 with
  | POut.fatal m => (POut.fatal m, repo_dir_path, lh.2 ++ exp.2)
  | POut.pyerr => (POut.pyerr, repo_dir_path, lh.2 ++ exp.2)
  | POut.ok expected_ref =>
      let bvv := git_branch_vv env
      match current_ref_of_output bvv.1 with
      | POut.fatal m => (POut.fatal m, repo_dir_path, lh.2 ++ exp.2 ++ bvv.2)
      | POut.pyerr => (POut.pyerr, repo_dir_path, lh.2 ++ exp.2 ++ bvv.2)
      | POut.ok curname =>
          let stat1 := { stat with
                         current_version := curname,
                         expected_version := expected_ref }
          if current_ref = EMPTY_STR then
            (POut.ok { stat1 with sync_state := SyncState.UNKNOWN },
             cwd0, lh.2 ++ exp.2 ++ bvv.2)
          else
            let rp := git_revparse_commit env expected_ref
            if rp.1.1 ≠ 0 then
              (POut.ok { stat1 with sync_state := SyncState.MODEL_MODIFIED },
               cwd0, lh.2 ++ exp.2 ++ bvv.2 ++ rp.2)
            else
              (POut.ok { stat1 with
                         sync_state := compare_refs current_ref rp.1.2 },
               cwd0, lh.2 ++ exp.2 ++ bvv.2 ++ rp.2)

/-- Body of `_check_sync`: a missing working-copy path is `STATUS_ERROR`,
a present path without a `.git` entry is `UNKNOWN`, otherwise the hash
comparison `_check_sync_logic` runs. The two filesystem facts are the
separate `os.path.exists` checks of the source. -/
def check_sync (env : GitEnv) (d : RepoDecl) (repo_dir_path : List Char)
    (stat : ExternalStatus) (cwd0 : List Char)
    (path_exists git_dir_exists : Bool) :
    POut ExternalStatus × List Char × List GitCmd :=
  if path_exists = false then
    (POut.ok { stat with sync_state := SyncState.STATUS_ERROR }, cwd0, [])
  else if git_dir_exists = false then
    (POut.ok { stat with sync_state := SyncState.UNKNOWN }, cwd0, [])
  else check_sync_logic env d repo_dir_path stat cwd0

/-- Body of `_status_v1z_is_dirty`: any nonempty porcelain output is
dirty. -/
def status_v1z_is_dirty (git_output : List Char) : Bool :=
  !git_output.isEmpty

/-- Body of `_status_summary`: saves and switches the working directory,
classifies cleanliness from the porcelain status, stores the verbose
status output, and restores the working directory. -/
def status_summary (env : GitEnv) (stat : ExternalStatus)
    (repo_dir_path cwd0 : List Char) :
    ExternalStatus × List Char × List GitCmd :=
  let po := git_status_porcelain_v1z env
  let is_dirty := status_v1z_is_dirty po.1
  let stat1 :=
    if is_dirty then { stat with clean_state := SyncState.DIRTY }
    else { stat with clean_state := SyncState.STATUS_OK }
  let vo := git_status_verbose env
  ({ stat1 with status_output := vo.1 }, cwd0, po.2 ++ vo.2)

/-- Public method `status`: the sync check followed, when the working-copy
path exists, by the clean/dirty summary. -/
def status (env : GitEnv) (d : RepoDecl) (repo_dir_path : List Char)
    (stat : ExternalStatus) (cwd0 : List Char)
    (path_exists git_dir_exists : Bool) :
    POut ExternalStatus × List Char × List GitCmd :=
  match check_sync env d repo_dir_path stat cwd0 path_exists git_dir_exists with
  | (POut.ok st1, c1, l1) =>
      if path_exists then
        let s := status_summary env st1 repo_dir_path c1
        (POut.ok s.1, s.2.1, l1 ++ s.2.2)
      else (POut.ok st1, c1, l1)
  | e => e

/-- Body of `_clone_repo`: saves the working directory, switches to the
base directory, clones, and restores the working directory. -/
def clone_repo (d : RepoDecl) (base_dir_path repo_dir_name cwd0 : List Char) :
    POut Unit × List Char × List GitCmd :=
  (POut.ok (), cwd0, [GitCmd.clone d.url repo_dir_name])

/-- Body of `_ref_is_tag`: the tag existence probe succeeds exactly on
shell status zero. -/
def ref_is_tag (env : GitEnv) (ref : List Char) : Bool × List GitCmd :=
  let v := git_showref_tag env ref
  (v.1 = 0, v.2)

/-- Body of `_ref_is_local_branch`. -/
def ref_is_local_branch (env : GitEnv) (ref : List Char) : Bool × List GitCmd :=
  let v := git_showref_branch env ref
  (v.1 = 0, v.2)

/-- Body of `_ref_is_remote_branch`. -/
def ref_is_remote_branch (env : GitEnv) (ref remoteName : List Char) :
    Bool × List GitCmd :=
  let v := git_lsremote_branch env ref remoteName
  (v.1 = 0, v.2)

/-- Body of `_ref_is_branch`: the remote probe runs first when a remote
name is supplied (`remote_name=None` is modelled as the empty name), then
the local probe; the reference is a branch when either succeeds. -/
def ref_is_branch (env : GitEnv) (ref remoteName : List Char) :
    Bool × List GitCmd :=
  let rb :=
    if remoteName ≠ [] then ref_is_remote_branch env ref remoteName
    else (false, [])
  let lb := ref_is_local_branch env ref
  (lb.1 || rb.1, rb.2 ++ lb.2)

/-- Body of `_ref_is_hash`: the reference must resolve to a commit whose
full hash textually begins with the supplied string. -/
def ref_is_hash (env : GitEnv) (ref : List Char) : Bool × List GitCmd :=
  let rp := git_revparse_commit env ref
  (rp.1.1 = 0 && startsWithL ref (pyStrip rp.1.2), rp.2)

/-- Message `is ok` of `_is_unique_tag`. -/
def msg_is_ok : List Char := ("is ok").data

/-- Message of `_is_unique_tag` for a name that is both a branch and a
tag. -/
def msg_both_branch_and_tag : List Char :=
  ("is both a branch and a tag. git may checkout the branch instead of the tag depending on your version of git.").data

/-- Message of `_is_unique_tag` for a name that is a branch and not a
tag. -/
def msg_branch_not_tag : List Char :=
  ("is a branch, and not a tag. If you intended to checkout a branch, please change the externals description to be a branch. If you intended to checkout a tag, it does not exist. Please check the name.").data

/-- Message of `_is_unique_tag` for a name that is none of tag, branch or
hash. -/
def msg_undetermined : List Char :=
  ("does not appear to be a valid tag, branch or hash! Please check the name and repository.").data

/-- Body of `_is_unique_tag`: reprobes tag, branch and hash, and judges
the reference a usable tag exactly when it is a tag and not a branch, or
neither tag nor branch but a valid hash; each verdict carries its
message. -/
def is_unique_tag (env : GitEnv) (ref remoteName : List Char) :
    (Bool × List Char) × List GitCmd :=
  let t := ref_is_tag env ref
  let b := ref_is_branch env ref remoteName
  let h := ref_is_hash env ref
  let verdict : Bool × List Char :=
    if t.1 && !b.1 then (true, msg_is_ok)
    else if t.1 && b.1 then (false, msg_both_branch_and_tag)
    else if !t.1 && b.1 then (false, msg_branch_not_tag)
    else if h.1 then (true, msg_is_ok)
    else (false, msg_undetermined)
  (verdict, t.2 ++ b.2 ++ h.2)

/-- Message of the `fatal_error` of `_check_for_valid_ref` for a
reference that is none of tag, branch or hash. -/
def invalid_ref_msg (d : RepoDecl) (ref : List Char) : List Char :=
  ("In repo \"").data ++ d.name ++ ("\": reference \"").data ++ ref ++
    ("\" does not appear to be a valid tag, branch or hash! Please verify the reference name (e.g. spelling), is available from: ").data ++
    d.url ++ [' ']

/-- Message of the `fatal_error` of `_check_for_valid_ref` for a tag that
is not unique; the source interpolates the declared tag field, not the
probed reference. -/
def tag_err_msg (d : RepoDecl) (msg : List Char) : List Char :=
  ("In repo \"").data ++ d.name ++ ("\": tag \"").data ++ d.tag ++
    ("\" ").data ++ msg

/-- Body of `_check_for_valid_ref`: probes tag, branch and hash; a
reference that is none of the three is a `fatal_error`; a reference that
is a tag must additionally be a unique tag, otherwise a `fatal_error`;
a valid reference is returned as `True`. -/
def check_for_valid_ref (env : GitEnv) (d : RepoDecl)
    (ref remoteName : List Char) : POut Bool × List GitCmd :=
  let t := ref_is_tag env ref
  let b := ref_is_branch env ref remoteName
  let h := ref_is_hash env ref
  let cs := t.2 ++ b.2 ++ h.2
  let is_valid := t.1 || b.1 || h.1
  if !is_valid then (POut.fatal (invalid_ref_msg d ref), cs)
  else if t.1 then
    let u := is_unique_tag env ref remoteName
    if !u.1.1 then (POut.fatal (tag_err_msg d u.1.2), cs ++ u.2)
    else (POut.ok is_valid, cs ++ u.2)
  else (POut.ok is_valid, cs)

/-- The reference `_checkout_local_ref` and `_checkout_external_ref`
select from the declaration: the tag, else the branch, else the hash. -/
def selected_ref (d : RepoDecl) : List Char :=
  if d.tag ≠ [] then d.tag
  else if d.branch ≠ [] then d.branch
  else d.hash

/-- Body of `_checkout_local_ref`: validate the selected reference
against local state only, then check it out unqualified. -/
def checkout_local_ref (env : GitEnv) (d : RepoDecl) :
    POut Unit × List GitCmd :=
  let ref := selected_ref d
  match check_for_valid_ref env d ref [] with
  | (POut.ok _, cs) => (POut.ok (), cs ++ [GitCmd.checkoutRef ref])
  | (POut.fatal m, cs) => (POut.fatal m, cs)
  | (POut.pyerr, cs) => (POut.pyerr, cs)

/-- Modelled from the spec: `is_remote_url` of `utils.py` (not under
`src/`). Spec 4.4 and the source docstring name git, ssh, http(s) and
hosting servers as remote protocols; a URL is remote when it starts with
such a protocol. -/
def is_remote_url (url : List Char) : Bool :=
  startsWithL ("git").data url || startsWithL ("ssh").data url ||
    startsWithL ("http").data url || containsSub ("://").data url

/-- The suffix of `l` after the first occurrence of the literal `sep`,
when `sep` occurs. -/
def afterFirstLit (sep : List Char) : List Char → Option (List Char)
  | [] => if sep.isEmpty then some [] else none
  | l@(_ :: t) =>
      match dropLit sep l with
      | some r => some r
      | none => afterFirstLit sep t

/-- Modelled from the spec: `split_remote_url` of `utils.py` (not under
`src/`), which "tries to strip off protocol info" from a remote URL: the
user part up to `@` and the scheme part up to `://` are removed, leaving
the trailing path segments (spec scenario: `https://example/repo.git`
leaves `example/repo.git`). -/
def split_remote_url (url : List Char) : List Char :=
  let u1 := (afterFirstLit ['@'] url).getD url
  (afterFirstLit ("://").data u1).getD u1

/-- Modelled from the spec: `expand_local_url` of `utils.py` (not under
`src/`), which expands a local path to an absolute path. Shell-variable
and user expansion depend on the process environment; on an
already-absolute, variable-free path it is the identity, which is how it
is modelled here. -/
def expand_local_url (url _name : List Char) : List Char :=
  url

/-- The punctuation `_create_remote_name` strips from the base name: the
characters of the Python string `unsafe_characters`
(brackets written with character escapes). -/
def badChars : List Char :=
  ['!', '@', '#', '$', '%', '^', '&', '*', '(', ')', '[', ']',
   '\x7b', '\x7d', '\\', '/', ',', ';', '~']

/-- The stripping loop of `_create_remote_name`: one `str.replace(c, '')`
per listed character, applied in order. -/
def strip_punct (l : List Char) : List Char :=
  badChars.foldl (fun s u => s.filter (fun c => c ≠ u)) l

/-- The `url` local of `_create_remote_name` after normalization: strip
protocol info from a remote URL, expand a local one. -/
def processed_url (durl dname : List Char) : List Char :=
  if is_remote_url durl then split_remote_url durl
  else expand_local_url durl dname

/-- Body of `_create_remote_name`: normalize the URL, split on `/`, and
join the stripped second-to-last segment with the verbatim last segment
by `_` (`repo_name = url[-1]`, `base_name = url[-2]`; only `base_name`
goes through the punctuation-stripping loop). A URL with fewer than two
segments hits an uncaught `IndexError` on `url[-2]`. -/
def create_remote_name (durl dname : List Char) : POut (List Char) :=
  match (splitOnSlash (processed_url durl dname)).reverse with
  | repo_name :: base_name :: _ =>
      POut.ok (strip_punct base_name ++ '_' :: repo_name)
  | _ => POut.pyerr

/-- One remote of the `git remote --verbose` output: the fetch line
`<name>\t<url> (fetch)`. -/
def fetch_line (n u : List Char) : List Char :=
  n ++ '\t' :: (u ++ (" (fetch)").data)

/-- One remote of the `git remote --verbose` output: the push line
`<name>\t<url> (push)`. -/
def push_line (n u : List Char) : List Char :=
  n ++ '\t' :: (u ++ (" (push)").data)

/-- The `git remote --verbose` output for a list of configured remote
bindings: a fetch line and a push line per binding, each
newline-terminated. -/
def render_remote_verbose : List (List Char × List Char) → List Char
  | [] => []
  | (n, u) :: rest =>
      fetch_line n u ++ '\n' ::
        (push_line n u ++ '\n' :: render_remote_verbose rest)

/-- The name of the first configured remote binding whose URL equals the
declared URL. -/
def first_match : List (List Char × List Char) → List Char → Option (List Char)
  | [], _ => none
  | (n, u) :: rest, url => if u = url then some n else first_match rest url

/-- Body of `_checkout_external_ref`: resolve the remote name for the
declared URL from the configured bindings (creating and registering a
new binding when none matches), fetch, validate the selected reference
against that remote, qualify a declared branch with the remote name, and
check out. The result carries the outcome, the bindings after the run,
and the git commands issued in order. -/
def checkout_external_ref (env : GitEnv)
    (bindings : List (List Char × List Char)) (d : RepoDecl) :
    POut Unit × List (List Char × List Char) × List GitCmd :=
  let ref := selected_ref d
  match determine_remote_name (render_remote_verbose bindings) d.url with
  | POut.fatal m => (POut.fatal m, bindings, [GitCmd.remoteVerbose])
  | POut.pyerr => (POut.pyerr, bindings, [GitCmd.remoteVerbose])
  | POut.ok rn0 =>
      let step : POut (List Char × List (List Char × List Char) × List GitCmd) :=
        if rn0 = [] then
          match create_remote_name d.url d.name with
          | POut.ok rn =>
              POut.ok (rn, bindings ++ [(rn, d.url)],
                       [GitCmd.remoteVerbose, GitCmd.remoteAdd rn d.url])
          | POut.fatal m => POut.fatal m
          | POut.pyerr => POut.pyerr
        else POut.ok (rn0, bindings, [GitCmd.remoteVerbose])
      match step with
      | POut.fatal m => (POut.fatal m, bindings, [GitCmd.remoteVerbose])
      | POut.pyerr => (POut.pyerr, bindings, [GitCmd.remoteVerbose])
      | POut.ok (remote_name, bindings1, cs1) =>
          let cs2 := cs1 ++ [GitCmd.fetch remote_name]
          match check_for_valid_ref env d ref remote_name with
          | (POut.fatal m, cs3) => (POut.fatal m, bindings1, cs2 ++ cs3)
          | (POut.pyerr, cs3) => (POut.pyerr, bindings1, cs2 ++ cs3)
          | (POut.ok _, cs3) =>
              let ref2 :=
                if d.branch ≠ [] then remote_name ++ '/' :: ref else ref
              (POut.ok (), bindings1, cs2 ++ cs3 ++ [GitCmd.checkoutRef ref2])

/-- Body of `_checkout_ref`: saves the working directory, switches to the
working copy, runs the local or the external checkout path depending on
the (stripped) declared URL, and restores the working directory on the
normal-return path. -/
def checkout_ref (env : GitEnv) (bindings : List (List Char × List Char))
    (d : RepoDecl) (repo_dir cwd0 : List Char) :
    POut Unit × List (List Char × List Char) × List Char × List GitCmd :=
  if pyStrip d.url = LOCAL_PATH_INDICATOR then
    match checkout_local_ref env d with
    | (POut.ok _, cs) => (POut.ok (), bindings, cwd0, cs)
    | (POut.fatal m, cs) => (POut.fatal m, bindings, repo_dir, cs)
    | (POut.pyerr, cs) => (POut.pyerr, bindings, repo_dir, cs)
  else
    match checkout_external_ref env bindings d with
    | (POut.ok _, bs, cs) => (POut.ok (), bs, cwd0, cs)
    | (POut.fatal m, bs, cs) => (POut.fatal m, bs, repo_dir, cs)
    | (POut.pyerr, bs, cs) => (POut.pyerr, bs, repo_dir, cs)

/-! Auxiliary lemmas about the text primitives. -/

/-- A whitespace-free token, as the remote names and URLs that appear in
the `git remote --verbose` output. -/
def wf_token (l : List Char) : Prop :=
  l ≠ [] ∧ ∀ c ∈ l, isSpaceChar c = false

/-- Well-formed remote bindings: nonempty, whitespace-free names and
URLs. -/
def wf_bindings (bs : List (List Char × List Char)) : Prop :=
  ∀ p ∈ bs, wf_token p.1 ∧ wf_token p.2

theorem dropWhile_eq_self_of (p : Char → Bool) (l : List Char)
    (h : ∀ c ∈ l, p c = false) : l.dropWhile p = l := by
  cases l with
  | nil => rfl
  | cons a t => simp [List.dropWhile_cons, h a (List.mem_cons_self a t)]

theorem stripBy_all_id (p : Char → Bool) (l : List Char)
    (h : ∀ c ∈ l, p c = false) : stripBy p l = l := by
  unfold stripBy
  rw [dropWhile_eq_self_of p l h,
      dropWhile_eq_self_of p l.reverse
        (fun c hc => h c (List.mem_reverse.mp hc)),
      List.reverse_reverse]

theorem stripBy_ends_id (p : Char → Bool) (a b : Char) (m : List Char)
    (ha : p a = false) (hb : p b = false) :
    stripBy p (a :: (m ++ [b])) = a :: (m ++ [b]) := by
  unfold stripBy
  have h1 : (a :: (m ++ [b])).dropWhile p = a :: (m ++ [b]) := by
    simp [List.dropWhile_cons, ha]
  have h2 : (a :: (m ++ [b])).reverse = b :: (a :: m).reverse := by
    rw [show a :: (m ++ [b]) = (a :: m) ++ [b] from rfl, List.reverse_append]
    simp
  have h3 : (b :: (a :: m).reverse).dropWhile p = b :: (a :: m).reverse := by
    simp [List.dropWhile_cons, hb]
  rw [h1, h2, h3, ← h2, List.reverse_reverse]

theorem dropLit_append (a b : List Char) : dropLit a (a ++ b) = some b := by
  induction a with
  | nil => simp [dropLit]
  | cons x xs ih => simp [dropLit, ih]

theorem containsSub_cons (n : List Char) (c : Char) (t : List Char) :
    containsSub n (c :: t) = (startsWithL n (c :: t) || containsSub n t) :=
  rfl

theorem containsSub_self_append (x b : List Char) :
    containsSub x (x ++ b) = true := by
  cases x with
  | nil =>
      cases b with
      | nil => rfl
      | cons c t => simp [containsSub_cons, startsWithL, dropLit]
  | cons c t =>
      show containsSub (c :: t) (c :: (t ++ b)) = true
      rw [containsSub_cons]
      have h1 : startsWithL (c :: t) (c :: (t ++ b)) = true := by
        have := dropLit_append (c :: t) b
        simp only [startsWithL]
        rw [show (c :: t) ++ b = c :: (t ++ b) from rfl] at this
        rw [this]
        rfl
      rw [h1, Bool.true_or]

theorem containsSub_append_left (n a l : List Char)
    (h : containsSub n l = true) : containsSub n (a ++ l) = true := by
  induction a with
  | nil => simpa using h
  | cons c a' ih =>
      show containsSub n (c :: (a' ++ l)) = true
      rw [containsSub_cons, ih, Bool.or_true]

theorem dropLit_mem (s : List Char) :
    ∀ (l r : List Char), dropLit s l = some r → ∀ c ∈ r, c ∈ l := by
  induction s with
  | nil =>
      intro l r h c hc
      simp [dropLit] at h
      rw [h]
      exact hc
  | cons x xs ih =>
      intro l r h c hc
      cases l with
      | nil => simp [dropLit] at h
      | cons b bs =>
          by_cases hxb : x = b
          · simp [dropLit, hxb] at h
            exact List.mem_cons_of_mem b (ih bs r h c hc)
          · simp [dropLit, hxb] at h

theorem afterFirstLit_mem (s : List Char) :
    ∀ (l r : List Char), afterFirstLit s l = some r → ∀ c ∈ r, c ∈ l := by
  intro l
  induction l with
  | nil =>
      intro r h c hc
      unfold afterFirstLit at h
      by_cases hs : s.isEmpty = true
      · rw [if_pos hs] at h
        injection h with h2
        rw [← h2] at hc
        exact hc
      · rw [if_neg hs] at h
        exact absurd h (by simp)
  | cons a t ih =>
      intro r h c hc
      unfold afterFirstLit at h
      cases hd : dropLit s (a :: t) with
      | some r2 =>
          rw [hd] at h
          simp only [Option.some.injEq] at h
          rw [← h] at hc
          exact dropLit_mem s (a :: t) r2 hd c hc
      | none =>
          rw [hd] at h
          exact List.mem_cons_of_mem a (ih r h c hc)

theorem splitOnSlashAux_no_slash :
    ∀ (l acc : List Char), ('/' ∉ acc) →
      ∀ p ∈ splitOnSlashAux l acc, '/' ∉ p := by
  intro l
  induction l with
  | nil =>
      intro acc hacc p hp
      simp [splitOnSlashAux] at hp
      rw [hp]
      simpa using hacc
  | cons c t ih =>
      intro acc hacc p hp
      by_cases hc : c = '/'
      · rw [hc] at hp
        simp [splitOnSlashAux] at hp
        rcases hp with hp | hp
        · rw [hp]; simpa using hacc
        · exact ih [] (by simp) p hp
      · simp [splitOnSlashAux, hc] at hp
        refine ih (c :: acc) ?_ p hp
        intro hmem
        rcases List.mem_cons.mp hmem with h1 | h1
        · exact hc h1.symm
        · exact hacc h1

theorem splitOnSlashAux_mem :
    ∀ (l acc : List Char), ∀ p ∈ splitOnSlashAux l acc,
      ∀ c ∈ p, c ∈ l ∨ c ∈ acc := by
  intro l
  induction l with
  | nil =>
      intro acc p hp c hc
      simp [splitOnSlashAux] at hp
      rw [hp] at hc
      right
      simpa using hc
  | cons a t ih =>
      intro acc p hp c hc
      by_cases ha : a = '/'
      · rw [ha] at hp
        simp [splitOnSlashAux] at hp
        rcases hp with hp | hp
        · rw [hp] at hc
          right
          simpa using hc
        · rcases ih [] p hp c hc with h1 | h1
          · left; exact List.mem_cons_of_mem _ h1
          · simp at h1
      · simp [splitOnSlashAux, ha] at hp
        rcases ih (a :: acc) p hp c hc with h1 | h1
        · left; exact List.mem_cons_of_mem _ h1
        · rcases List.mem_cons.mp h1 with h2 | h2
          · left; rw [h2]; exact List.mem_cons_self a t
          · right; exact h2

theorem strip_punct_core :
    ∀ (us l : List Char) (c : Char),
      c ∈ us.foldl (fun s u => s.filter (fun x => x ≠ u)) l →
        c ∈ l ∧ c ∉ us := by
  intro us
  induction us with
  | nil =>
      intro l c h
      simp at h ⊢
      exact h
  | cons u us' ih =>
      intro l c h
      rw [List.foldl_cons] at h
      rcases ih (l.filter (fun x => x ≠ u)) c h with ⟨h1, h2⟩
      rcases List.mem_filter.mp h1 with ⟨h3, h4⟩
      refine ⟨h3, ?_⟩
      intro hmem
      rcases List.mem_cons.mp hmem with h5 | h5
      · rw [h5] at h4; simp at h4
      · exact h2 h5

theorem strip_punct_mem (l : List Char) (c : Char)
    (h : c ∈ strip_punct l) : c ∈ l ∧ c ∉ badChars :=
  strip_punct_core badChars l c h

theorem pySplitAux_word (w : List Char)
    (hw : ∀ c ∈ w, isSpaceChar c = false) :
    ∀ (rest acc : List Char),
      pySplitAux (w ++ rest) acc = pySplitAux rest (w.reverse ++ acc) := by
  induction w with
  | nil => intro rest acc; simp
  | cons c w' ih =>
      intro rest acc
      have hc : isSpaceChar c = false := hw c (List.mem_cons_self c w')
      show pySplitAux (c :: (w' ++ rest)) acc = _
      rw [show pySplitAux (c :: (w' ++ rest)) acc
            = pySplitAux (w' ++ rest) (c :: acc) by simp [pySplitAux, hc]]
      rw [ih (fun x hx => hw x (List.mem_cons_of_mem c hx)) rest (c :: acc)]
      simp

theorem splitLinesAux_line (l : List Char)
    (hl : ∀ c ∈ l, ¬ c = '\n') :
    ∀ (rest acc : List Char),
      splitLinesAux (l ++ '\n' :: rest) acc
        = (acc.reverse ++ l) :: splitLinesAux rest [] := by
  induction l with
  | nil => intro rest acc; simp [splitLinesAux]
  | cons c l' ih =>
      intro rest acc
      have hc : ¬ c = '\n' := hl c (List.mem_cons_self c l')
      show splitLinesAux (c :: (l' ++ '\n' :: rest)) acc = _
      rw [show splitLinesAux (c :: (l' ++ '\n' :: rest)) acc
            = splitLinesAux (l' ++ '\n' :: rest) (c :: acc) by
            simp [splitLinesAux, hc]]
      rw [ih (fun x hx => hl x (List.mem_cons_of_mem c hx)) rest (c :: acc)]
      simp

theorem pySplitAux_space (c : Char) (hc : isSpaceChar c = true)
    (t acc : List Char) (hacc : acc ≠ []) :
    pySplitAux (c :: t) acc = acc.reverse :: pySplitAux t [] := by
  have he : acc.isEmpty = false := by
    cases acc with
    | nil => exact absurd rfl hacc
    | cons _ _ => rfl
  simp [pySplitAux, hc, he]

theorem wf_token_no_nl (l : List Char) (h : wf_token l) :
    ∀ c ∈ l, ¬ c = '\n' := by
  intro c hc heq
  have h2 := h.2 c hc
  rw [heq] at h2
  exact absurd h2 (by decide)

theorem fetch_line_no_nl (n u : List Char) (hn : wf_token n)
    (hu : wf_token u) : ∀ c ∈ fetch_line n u, ¬ c = '\n' := by
  intro c hc heq
  subst heq
  simp [fetch_line] at hc
  rcases hc with h | h
  · exact absurd (hn.2 '\n' h) (by decide)
  · exact absurd (hu.2 '\n' h) (by decide)

theorem push_line_no_nl (n u : List Char) (hn : wf_token n)
    (hu : wf_token u) : ∀ c ∈ push_line n u, ¬ c = '\n' := by
  intro c hc heq
  subst heq
  simp [push_line] at hc
  rcases hc with h | h
  · exact absurd (hn.2 '\n' h) (by decide)
  · exact absurd (hu.2 '\n' h) (by decide)

theorem pyStrip_fetch_line (n u : List Char) (hn : wf_token n)
    (hu : wf_token u) : pyStrip (fetch_line n u) = fetch_line n u := by
  obtain ⟨hne, hmem⟩ := hn
  cases n with
  | nil => exact absurd rfl hne
  | cons a n0 =>
      have ha : isSpaceChar a = false := hmem a (List.mem_cons_self a n0)
      have hfact : (" (fetch)").data = (" (fetch").data ++ [')'] := by decide
      have hshape : fetch_line (a :: n0) u
          = a :: ((n0 ++ '\t' :: (u ++ (" (fetch").data)) ++ [')']) := by
        unfold fetch_line
        rw [hfact]
        simp [List.append_assoc]
      rw [hshape]
      exact stripBy_ends_id isSpaceChar a ')' _ ha (by decide)

theorem pyStrip_push_line (n u : List Char) (hn : wf_token n)
    (hu : wf_token u) : pyStrip (push_line n u) = push_line n u := by
  obtain ⟨hne, hmem⟩ := hn
  cases n with
  | nil => exact absurd rfl hne
  | cons a n0 =>
      have ha : isSpaceChar a = false := hmem a (List.mem_cons_self a n0)
      have hfact : (" (push)").data = (" (push").data ++ [')'] := by decide
      have hshape : push_line (a :: n0) u
          = a :: ((n0 ++ '\t' :: (u ++ (" (push").data)) ++ [')']) := by
        unfold push_line
        rw [hfact]
        simp [List.append_assoc]
      rw [hshape]
      exact stripBy_ends_id isSpaceChar a ')' _ ha (by decide)

theorem pySplit_fetch_line (n u : List Char) (hn : wf_token n)
    (hu : wf_token u) :
    pySplit (fetch_line n u) = [n, u, ("(fetch)").data] := by
  unfold pySplit fetch_line
  rw [pySplitAux_word n hn.2 ('\t' :: (u ++ (" (fetch)").data)) []]
  rw [pySplitAux_space '\t' (by decide) _ (n.reverse ++ []) (by simpa using hn.1)]
  rw [show (" (fetch)").data = ' ' :: ("(fetch)").data from by decide]
  rw [pySplitAux_word u hu.2 (' ' :: ("(fetch)").data) []]
  rw [pySplitAux_space ' ' (by decide) _ (u.reverse ++ []) (by simpa using hu.1)]
  rw [show pySplitAux (("(fetch)").data) [] = [("(fetch)").data] from by decide]
  simp

theorem pySplit_push_line (n u : List Char) (hn : wf_token n)
    (hu : wf_token u) :
    pySplit (push_line n u) = [n, u, ("(push)").data] := by
  unfold pySplit push_line
  rw [pySplitAux_word n hn.2 ('\t' :: (u ++ (" (push)").data)) []]
  rw [pySplitAux_space '\t' (by decide) _ (n.reverse ++ []) (by simpa using hn.1)]
  rw [show (" (push)").data = ' ' :: ("(push)").data from by decide]
  rw [pySplitAux_word u hu.2 (' ' :: ("(push)").data) []]
  rw [pySplitAux_space ' ' (by decide) _ (u.reverse ++ []) (by simpa using hu.1)]
  rw [show pySplitAux (("(push)").data) [] = [("(push)").data] from by decide]
  simp

theorem determine_lines_cons (l : List Char) (rest : List (List Char))
    (url n u : List Char) (junk : List (List Char))
    (hstrip : pyStrip l = l) (hne : l ≠ [])
    (hsplit : pySplit l = n :: u :: junk)
    (hn : pyStrip n = n) (hu : pyStrip u = u) :
    determine_lines (l :: rest) url
      = if u = url then POut.ok n else determine_lines rest url := by
  have he : l.isEmpty = false := by
    cases l with
    | nil => exact absurd rfl hne
    | cons _ _ => rfl
  show (let ddata := pyStrip l
        if ddata.isEmpty then determine_lines rest url
        else
          match pySplit ddata with
          | nm :: u2 :: _ =>
              if pyStrip u2 = url then POut.ok (pyStrip nm)
              else determine_lines rest url
          | _ => POut.pyerr) = _
  rw [show (let ddata := pyStrip l
            if ddata.isEmpty then determine_lines rest url
            else
              match pySplit ddata with
              | nm :: u2 :: _ =>
                  if pyStrip u2 = url then POut.ok (pyStrip nm)
                  else determine_lines rest url
              | _ => POut.pyerr)
        = (if (pyStrip l).isEmpty then determine_lines rest url
           else
             match pySplit (pyStrip l) with
             | nm :: u2 :: _ =>
                 if pyStrip u2 = url then POut.ok (pyStrip nm)
                 else determine_lines rest url
             | _ => POut.pyerr) from rfl]
  rw [hstrip, he, hsplit]
  simp [hn, hu]

theorem splitLines_cons_line (l rest : List Char)
    (hl : ∀ c ∈ l, ¬ c = '\n') :
    splitLines (l ++ '\n' :: rest) = l :: splitLines rest := by
  unfold splitLines
  rw [splitLinesAux_line l hl rest []]
  simp

theorem fetch_line_ne_nil (n u : List Char) (hn : wf_token n) :
    fetch_line n u ≠ [] := by
  cases n with
  | nil => exact absurd rfl hn.1
  | cons a n0 => simp [fetch_line]

theorem push_line_ne_nil (n u : List Char) (hn : wf_token n) :
    push_line n u ≠ [] := by
  cases n with
  | nil => exact absurd rfl hn.1
  | cons a n0 => simp [push_line]

theorem determine_render (url : List Char) :
    ∀ bs, wf_bindings bs →
      determine_remote_name (render_remote_verbose bs) url
        = POut.ok ((first_match bs url).getD []) := by
  intro bs
  induction bs with
  | nil => intro _; rfl
  | cons p rest ih =>
      intro hwf
      obtain ⟨n, u⟩ := p
      have hn : wf_token n := (hwf (n, u) (List.mem_cons_self _ _)).1
      have hu : wf_token u := (hwf (n, u) (List.mem_cons_self _ _)).2
      have hwfr : wf_bindings rest :=
        fun q hq => hwf q (List.mem_cons_of_mem _ hq)
      have hnn : pyStrip n = n := stripBy_all_id isSpaceChar n hn.2
      have huu : pyStrip u = u := stripBy_all_id isSpaceChar u hu.2
      unfold determine_remote_name render_remote_verbose
      rw [splitLines_cons_line (fetch_line n u) _ (fetch_line_no_nl n u hn hu)]
      rw [splitLines_cons_line (push_line n u) _ (push_line_no_nl n u hn hu)]
      rw [determine_lines_cons (fetch_line n u) _ url n u _
            (pyStrip_fetch_line n u hn hu) (fetch_line_ne_nil n u hn)
            (pySplit_fetch_line n u hn hu) hnn huu]
      rw [determine_lines_cons (push_line n u) _ url n u _
            (pyStrip_push_line n u hn hu) (push_line_ne_nil n u hn)
            (pySplit_push_line n u hn hu) hnn huu]
      by_cases hurl : u = url
      · simp [hurl, first_match]
      · simp only [if_neg hurl]
        have := ih hwfr
        unfold determine_remote_name at this
        rw [this]
        simp [first_match, hurl]

theorem getD_afterFirst_mem (sep l : List Char) :
    ∀ c ∈ (afterFirstLit sep l).getD l, c ∈ l := by
  intro c hc
  cases h : afterFirstLit sep l with
  | none => rw [h] at hc; simpa using hc
  | some r =>
      rw [h] at hc
      exact afterFirstLit_mem sep l r h c hc

theorem split_remote_url_mem (url : List Char) :
    ∀ c ∈ split_remote_url url, c ∈ url := by
  intro c hc
  unfold split_remote_url at hc
  exact getD_afterFirst_mem ['@'] url c
    (getD_afterFirst_mem (("://").data) _ c hc)

theorem processed_url_mem (durl dname : List Char) :
    ∀ c ∈ processed_url durl dname, c ∈ durl := by
  intro c hc
  unfold processed_url at hc
  by_cases hrm : is_remote_url durl = true
  · rw [if_pos hrm] at hc
    exact split_remote_url_mem durl c hc
  · rw [if_neg hrm] at hc
    simpa [expand_local_url] using hc

theorem create_remote_name_wf (durl dname rn : List Char)
    (hurl : ∀ c ∈ durl, isSpaceChar c = false)
    (h : create_remote_name durl dname = POut.ok rn) : wf_token rn := by
  unfold create_remote_name at h
  have hmemurl : ∀ c ∈ processed_url durl dname, c ∈ durl :=
    processed_url_mem durl dname
  set url := processed_url durl dname with hu
  cases hsp : (splitOnSlash url).reverse with
  | nil => rw [hsp] at h; exact absurd h (by simp)
  | cons repo rest1 =>
      cases rest1 with
      | nil => rw [hsp] at h; exact absurd h (by simp)
      | cons base rest2 =>
          rw [hsp] at h
          simp only [POut.ok.injEq] at h
          rw [← h]
          have hbase : base ∈ splitOnSlash url := by
            rw [← List.mem_reverse, hsp]
            exact List.mem_cons_of_mem _ (List.mem_cons_self _ _)
          have hrepo : repo ∈ splitOnSlash url := by
            rw [← List.mem_reverse, hsp]
            exact List.mem_cons_self _ _
          constructor
          · cases hb : strip_punct base with
            | nil => simp
            | cons _ _ => simp
          · intro c hc
            rcases List.mem_append.mp hc with h1 | h1
            · rcases strip_punct_mem base c h1 with ⟨hb, _⟩
              rcases splitOnSlashAux_mem url [] base hbase c hb with h2 | h2
              · exact hurl c (hmemurl c h2)
              · simp at h2
            · rcases List.mem_cons.mp h1 with h2 | h2
              · rw [h2]; decide
              · rcases splitOnSlashAux_mem url [] repo hrepo c h2 with h3 | h3
                · exact hurl c (hmemurl c h3)
                · simp at h3

theorem first_match_mem :
    ∀ (bs : List (List Char × List Char)) (url nm : List Char),
      first_match bs url = some nm → (nm, url) ∈ bs := by
  intro bs
  induction bs with
  | nil => intro url nm h; simp [first_match] at h
  | cons p rest ih =>
      intro url nm h
      obtain ⟨n, u⟩ := p
      by_cases hu : u = url
      · subst hu
        simp [first_match] at h
        rw [← h]
        exact List.mem_cons_self _ _
      · simp [first_match, hu] at h
        exact List.mem_cons_of_mem _ (ih url nm h)

theorem first_match_append (bs : List (List Char × List Char))
    (url rn : List Char) (h : first_match bs url = none) :
    first_match (bs ++ [(rn, url)]) url = some rn := by
  induction bs with
  | nil => simp [first_match]
  | cons p rest ih =>
      obtain ⟨n, u⟩ := p
      by_cases hu : u = url
      · subst hu; simp [first_match] at h
      · simp only [first_match, List.cons_append, if_neg hu] at h ⊢
        exact ih h

/-! Claim theorems. -/

/-- C1: for every working copy whose current head hash and expected
reference both resolve, `_check_sync_logic` compares the two as resolved
full commit hashes: equal hashes give `STATUS_OK`, different resolved
hashes give `MODEL_MODIFIED`; and two declarations whose expected
references are written as different names aliasing the same commit both
evaluate to `STATUS_OK` when the head is at that commit. -/
theorem spec_c1_sync_compares_resolved_hashes :
    (∀ (env : GitEnv) (d : RepoDecl) (repo_dir_path : List Char)
       (stat : ExternalStatus) (cwd0 e v hraw : List Char),
       (expected_ref_of env d).1 = POut.ok e →
       current_ref_of_output env.branch_vv_out = POut.ok v →
       current_hash env ≠ [] →
       env.revparse_commit e = (0, hraw) →
       ∃ st, (check_sync_logic env d repo_dir_path stat cwd0).1 = POut.ok st ∧
         st.sync_state =
           (if current_hash env = pyStrip hraw then SyncState.STATUS_OK
            else SyncState.MODEL_MODIFIED)) ∧
    (∀ (env : GitEnv) (d1 d2 : RepoDecl) (repo_dir_path : List Char)
       (stat : ExternalStatus) (cwd0 e1 e2 v hraw : List Char),
       e1 ≠ e2 →
       (expected_ref_of env d1).1 = POut.ok e1 →
       (expected_ref_of env d2).1 = POut.ok e2 →
       current_ref_of_output env.branch_vv_out = POut.ok v →
       current_hash env = pyStrip hraw →
       current_hash env ≠ [] →
       env.revparse_commit e1 = (0, hraw) →
       env.revparse_commit e2 = (0, hraw) →
       ∃ st1 st2,
         (check_sync_logic env d1 repo_dir_path stat cwd0).1 = POut.ok st1 ∧
         (check_sync_logic env d2 repo_dir_path stat cwd0).1 = POut.ok st2 ∧
         st1.sync_state = SyncState.STATUS_OK ∧
         st2.sync_state = SyncState.STATUS_OK) := by
  have part1 : ∀ (env : GitEnv) (d : RepoDecl) (repo_dir_path : List Char)
      (stat : ExternalStatus) (cwd0 e v hraw : List Char),
      (expected_ref_of env d).1 = POut.ok e →
      current_ref_of_output env.branch_vv_out = POut.ok v →
      current_hash env ≠ [] →
      env.revparse_commit e = (0, hraw) →
      ∃ st, (check_sync_logic env d repo_dir_path stat cwd0).1 = POut.ok st ∧
        st.sync_state =
          (if current_hash env = pyStrip hraw then SyncState.STATUS_OK
           else SyncState.MODEL_MODIFIED) := by
    intro env d repo_dir_path stat cwd0 e v hraw he hv hcur hrp
    have hcur2 : (stripBy (fun c => c = '"') (pyStrip env.log_hash_out)
        = EMPTY_STR) = False := by
      simp only [current_hash, git_log_hash] at hcur
      simp [EMPTY_STR, hcur]
    refine ⟨{ stat with
              current_version := v,
              expected_version := e,
              sync_state := compare_refs (current_hash env) (pyStrip hraw) },
            ?_, ?_⟩
    · simp only [check_sync_logic, git_log_hash, git_branch_vv,
                 git_revparse_commit, he, hv, hrp, hcur2, if_false,
                 current_hash]
      simp
    · simp [compare_refs]
  refine ⟨part1, ?_⟩
  intro env d1 d2 repo_dir_path stat cwd0 e1 e2 v hraw hne he1 he2 hv heq hcur hrp1 hrp2
  obtain ⟨st1, h1, h1s⟩ :=
    part1 env d1 repo_dir_path stat cwd0 e1 v hraw he1 hv hcur hrp1
  obtain ⟨st2, h2, h2s⟩ :=
    part1 env d2 repo_dir_path stat cwd0 e2 v hraw he2 hv hcur hrp2
  refine ⟨st1, st2, h1, h2, ?_, ?_⟩
  · rw [h1s, if_pos heq]
  · rw [h2s, if_pos heq]

/-- A minimal command environment: every probe fails, every output is
empty. -/
def env0 : GitEnv :=
  { log_hash_out := []
  , branch_vv_out := []
  , remote_verbose_out := []
  , status_porcelain_out := []
  , status_verbose_out := []
  , showref_tag := fun _ => 1
  , showref_branch := fun _ => 1
  , lsremote_branch := fun _ _ => 1
  , revparse_commit := fun _ => (1, []) }

/-- A declaration with none of branch, tag or hash set. -/
def d_bad : RepoDecl :=
  { name := ("comp").data
  , url := ("https://example/repo.git").data }

/-- C2 (amended): each sequence that switches into a working copy
restores the prior working directory on its normal-return path; the
clone and status-summary sequences always do. (On abort exits the
restore is skipped; see the counterexample.) -/
theorem spec_c2_cwd_restored_on_success :
    (∀ (env : GitEnv) (d : RepoDecl) (repo_dir_path : List Char)
       (stat : ExternalStatus) (cwd0 : List Char),
       pIsOk (check_sync_logic env d repo_dir_path stat cwd0).1 = true →
       (check_sync_logic env d repo_dir_path stat cwd0).2.1 = cwd0) ∧
    (∀ (env : GitEnv) (bs : List (List Char × List Char)) (d : RepoDecl)
       (repo_dir cwd0 : List Char),
       pIsOk (checkout_ref env bs d repo_dir cwd0).1 = true →
       (checkout_ref env bs d repo_dir cwd0).2.2.1 = cwd0) ∧
    (∀ (d : RepoDecl) (base_dir_path repo_dir_name cwd0 : List Char),
       (clone_repo d base_dir_path repo_dir_name cwd0).2.1 = cwd0) ∧
    (∀ (env : GitEnv) (stat : ExternalStatus) (repo_dir_path cwd0 : List Char),
       (status_summary env stat repo_dir_path cwd0).2.1 = cwd0) := by
  refine ⟨?_, ?_, ?_, ?_⟩
  · intro env d repo_dir_path stat cwd0 h
    simp only [check_sync_logic] at h ⊢
    cases hexp : (expected_ref_of env d).1 with
    | fatal m => rw [hexp] at h; simp [pIsOk] at h
    | pyerr => rw [hexp] at h; simp [pIsOk] at h
    | ok e =>
        rw [hexp] at h
        cases hcr : current_ref_of_output (git_branch_vv env).1 with
        | fatal m => rw [hcr] at h; simp [pIsOk] at h
        | pyerr => rw [hcr] at h; simp [pIsOk] at h
        | ok v =>
            by_cases hemp :
                stripBy (fun c => c = '"') (git_log_hash env).1 = EMPTY_STR
            · simp [hemp]
            · by_cases hst : (git_revparse_commit env e).1.1 ≠ 0
              · simp [hemp, hst]
              · simp [hemp, hst]
  · intro env bs d repo_dir cwd0 h
    simp only [checkout_ref] at h ⊢
    by_cases hloc : pyStrip d.url = LOCAL_PATH_INDICATOR
    · rw [if_pos hloc] at h ⊢
      cases hres : checkout_local_ref env d with
      | mk r cs =>
          cases r with
          | ok a => simp
          | fatal m => rw [hres] at h; simp [pIsOk] at h
          | pyerr => rw [hres] at h; simp [pIsOk] at h
    · rw [if_neg hloc] at h ⊢
      cases hres : checkout_external_ref env bs d with
      | mk r rest =>
          cases r with
          | ok a => simp
          | fatal m => rw [hres] at h; simp [pIsOk] at h
          | pyerr => rw [hres] at h; simp [pIsOk] at h
  · intro d base_dir_path repo_dir_name cwd0
    rfl
  · intro env stat repo_dir_path cwd0
    rfl

/-- C2 counterexample: a sync check that aborts with the configuration
`fatal_error` (no branch, tag or hash declared) terminates while the
process working directory is still the working-copy path, not the saved
prior directory: the `os.chdir(cwd)` restore of `_check_sync_logic` is
only reached on the normal-return path. -/
theorem spec_c2_counterexample :
    (check_sync_logic env0 d_bad (("/base/repo").data)
        ({} : ExternalStatus) (("/start").data)).1
      = POut.fatal (config_err_msg d_bad) ∧
    (check_sync_logic env0 d_bad (("/base/repo").data)
        ({} : ExternalStatus) (("/start").data)).2.1 = ("/base/repo").data ∧
    ("/base/repo").data ≠ ("/start").data := by
  refine ⟨?_, ?_, ?_⟩ <;> decide

/-- C2 witness: a concrete successful sync check ends in the saved prior
working directory. -/
theorem spec_c2_witness :
    (check_sync_logic env0
        { name := ("comp").data, url := LOCAL_PATH_INDICATOR,
          branch := ("main").data }
        (("/base/repo").data) ({} : ExternalStatus)
        (("/start").data)).2.1 = ("/start").data :=
  spec_c2_cwd_restored_on_success.1 env0
    { name := ("comp").data, url := LOCAL_PATH_INDICATOR,
      branch := ("main").data }
    (("/base/repo").data) ({} : ExternalStatus) (("/start").data)
    (by decide)

/-- C8 (amended): with none of branch, hash or tag set the sync
evaluation aborts with the configuration `fatal_error`; the abort happens
after exactly one VCS command — the `git log` query for the current head
hash, which `_check_sync_logic` runs before the declaration dispatch —
and before any other VCS command. -/
theorem spec_c8_config_error_after_log_query :
    ∀ (env : GitEnv) (d : RepoDecl) (repo_dir_path : List Char)
      (stat : ExternalStatus) (cwd0 : List Char),
      d.branch = [] → d.hash = [] → d.tag = [] →
      check_sync_logic env d repo_dir_path stat cwd0
        = (POut.fatal (config_err_msg d), repo_dir_path, [GitCmd.logHash]) := by
  intro env d repo_dir_path stat cwd0 hb hh ht
  have hexp1 : (expected_ref_of env d).1 = POut.fatal (config_err_msg d) := by
    simp [expected_ref_of, hb, hh, ht]
  have hexp2 : (expected_ref_of env d).2 = [] := by
    simp [expected_ref_of, hb, hh, ht]
  simp only [check_sync_logic, hexp1, hexp2, git_log_hash]
  simp

/-- C8 counterexample: with none of branch, hash or tag set the run ends
in the configuration `fatal_error`, but its command trace already holds a
VCS command (the `git log` hash query) — the error is not caught before
any VCS command runs. -/
theorem spec_c8_counterexample :
    (check_sync_logic env0 d_bad (("/base/repo").data)
        ({} : ExternalStatus) (("/start").data)).2.2 = [GitCmd.logHash] ∧
    (check_sync_logic env0 d_bad (("/base/repo").data)
        ({} : ExternalStatus) (("/start").data)).2.2 ≠ [] := by
  refine ⟨?_, ?_⟩ <;> decide

/-- C8 witness: the amended theorem applied at a concrete declaration. -/
theorem spec_c8_witness :
    check_sync_logic env0 d_bad (("/base/repo").data) ({} : ExternalStatus)
        (("/start").data)
      = (POut.fatal (config_err_msg d_bad), ("/base/repo").data,
         [GitCmd.logHash]) :=
  spec_c8_config_error_after_log_query env0 d_bad (("/base/repo").data)
    ({} : ExternalStatus) (("/start").data) (by decide) (by decide) (by decide)

/-- C9: a missing working-copy path makes the status run report
`STATUS_ERROR` without attempting any VCS command; a present path whose
`.git` marker is absent reports `UNKNOWN`, and the hash comparison is
short-circuited: the only commands the status run issues are the two
working-tree status queries of the summary, never the hash queries of the
sync comparison. -/
theorem spec_c9_structural_absence :
    (∀ (env : GitEnv) (d : RepoDecl) (repo_dir_path : List Char)
       (stat : ExternalStatus) (cwd0 : List Char) (g : Bool),
       status env d repo_dir_path stat cwd0 false g
         = (POut.ok { stat with sync_state := SyncState.STATUS_ERROR },
            cwd0, [])) ∧
    (∀ (env : GitEnv) (d : RepoDecl) (repo_dir_path : List Char)
       (stat : ExternalStatus) (cwd0 : List Char),
       ∃ st, status env d repo_dir_path stat cwd0 true false
           = (POut.ok st, cwd0,
              [GitCmd.statusPorcelainV1z, GitCmd.statusVerbose]) ∧
         st.sync_state = SyncState.UNKNOWN) := by
  constructor
  · intro env d repo_dir_path stat cwd0 g
    simp [status, check_sync]
  · intro env d repo_dir_path stat cwd0
    by_cases hd : status_v1z_is_dirty env.status_porcelain_out
    · refine ⟨{ stat with
                sync_state := SyncState.UNKNOWN,
                clean_state := SyncState.DIRTY,
                status_output := env.status_verbose_out }, ?_, rfl⟩
      simp [status, check_sync, status_summary, git_status_porcelain_v1z,
            git_status_verbose, hd]
    · refine ⟨{ stat with
                sync_state := SyncState.UNKNOWN,
                clean_state := SyncState.STATUS_OK,
                status_output := env.status_verbose_out }, ?_, rfl⟩
      simp [status, check_sync, status_summary, git_status_porcelain_v1z,
            git_status_verbose, hd]

/-- C9 witness: the theorem applied at a concrete environment, for a
missing path and for a path without the `.git` marker. -/
theorem spec_c9_witness :
    (status env0 d_bad (("/base/repo").data) ({} : ExternalStatus)
        (("/start").data) false true
      = (POut.ok { sync_state := SyncState.STATUS_ERROR },
         ("/start").data, [])) ∧
    (∃ st, status env0 d_bad (("/base/repo").data) ({} : ExternalStatus)
        (("/start").data) true false
        = (POut.ok st, ("/start").data,
           [GitCmd.statusPorcelainV1z, GitCmd.statusVerbose]) ∧
      st.sync_state = SyncState.UNKNOWN) :=
  ⟨spec_c9_structural_absence.1 env0 d_bad (("/base/repo").data)
     ({} : ExternalStatus) (("/start").data) true,
   spec_c9_structural_absence.2 env0 d_bad (("/base/repo").data)
     ({} : ExternalStatus) (("/start").data)⟩

theorem check_for_valid_ref_no_checkout (env : GitEnv) (d : RepoDecl)
    (ref rn : List Char) :
    ∀ r, GitCmd.checkoutRef r ∉ (check_for_valid_ref env d ref rn).2 := by
  intro r
  unfold check_for_valid_ref is_unique_tag ref_is_tag ref_is_branch
    ref_is_local_branch ref_is_remote_branch ref_is_hash git_showref_tag
    git_showref_branch git_lsremote_branch git_revparse_commit
  by_cases hrn : rn = [] <;> simp [hrn] <;> split_ifs <;> simp

/-- C4: a reference that probes as both a tag and a branch makes
`_check_for_valid_ref` abort with a `fatal_error` whose message carries
the `_is_unique_tag` diagnosis naming both facts (`is both a branch and a
tag ...`); the local checkout path therefore aborts without ever issuing
a checkout command. -/
theorem spec_c4_tag_branch_collision_fatal :
    (∀ (env : GitEnv) (d : RepoDecl) (ref rn : List Char),
       (ref_is_tag env ref).1 = true →
       (ref_is_branch env ref rn).1 = true →
       (check_for_valid_ref env d ref rn).1
         = POut.fatal (tag_err_msg d msg_both_branch_and_tag) ∧
       containsSub (("is both a branch and a tag").data)
         (tag_err_msg d msg_both_branch_and_tag) = true) ∧
    (∀ (env : GitEnv) (d : RepoDecl),
       (ref_is_tag env (selected_ref d)).1 = true →
       (ref_is_branch env (selected_ref d) []).1 = true →
       (checkout_local_ref env d).1
         = POut.fatal (tag_err_msg d msg_both_branch_and_tag) ∧
       ∀ r, GitCmd.checkoutRef r ∉ (checkout_local_ref env d).2) := by
  have hcontain : ∀ d : RepoDecl,
      containsSub (("is both a branch and a tag").data)
        (tag_err_msg d msg_both_branch_and_tag) = true := by
    intro d
    have hbase : containsSub (("is both a branch and a tag").data)
        msg_both_branch_and_tag = true := by decide
    unfold tag_err_msg
    repeat apply containsSub_append_left
    exact hbase
  have part1 : ∀ (env : GitEnv) (d : RepoDecl) (ref rn : List Char),
      (ref_is_tag env ref).1 = true →
      (ref_is_branch env ref rn).1 = true →
      (check_for_valid_ref env d ref rn).1
        = POut.fatal (tag_err_msg d msg_both_branch_and_tag) := by
    intro env d ref rn ht hb
    unfold check_for_valid_ref is_unique_tag
    simp [ht, hb]
  refine ⟨fun env d ref rn ht hb => ⟨part1 env d ref rn ht hb, hcontain d⟩, ?_⟩
  intro env d ht hb
  have h1 := part1 env d (selected_ref d) [] ht hb
  constructor
  · simp only [checkout_local_ref]
    cases hres : check_for_valid_ref env d (selected_ref d) [] with
    | mk res cs =>
        rw [hres] at h1
        simp at h1
        rw [h1]
  · simp only [checkout_local_ref]
    cases hres : check_for_valid_ref env d (selected_ref d) [] with
    | mk res cs =>
        rw [hres] at h1
        simp at h1
        rw [h1]
        intro r
        have := check_for_valid_ref_no_checkout env d (selected_ref d) [] r
        rw [hres] at this
        exact this

/-- C4 witness: a concrete environment in which the probed reference is
both a tag and a branch. -/
def env_c4 : GitEnv :=
  { env0 with
    showref_tag := fun _ => 0,
    showref_branch := fun _ => 0 }

/-- A declaration whose tag collides with a branch name in `env_c4`. -/
def d_c4 : RepoDecl :=
  { name := ("comp").data
  , url := LOCAL_PATH_INDICATOR
  , tag := ("v1").data }

/-- C4 witness: the collision reference is rejected with the two-fact
message and no checkout command is issued. -/
theorem spec_c4_witness :
    ((check_for_valid_ref env_c4 d_c4 (("v1").data) []).1
      = POut.fatal (tag_err_msg d_c4 msg_both_branch_and_tag)) ∧
    (∀ r, GitCmd.checkoutRef r ∉ (checkout_local_ref env_c4 d_c4).2) :=
  ⟨(spec_c4_tag_branch_collision_fatal.1 env_c4 d_c4 (("v1").data) []
      (by decide) (by decide)).1,
   (spec_c4_tag_branch_collision_fatal.2 env_c4 d_c4
      (by decide) (by decide)).2⟩

/-- C10: `_check_for_valid_ref` consults `_is_unique_tag` only behind its
`is_tag` guard, so a reference probing as a branch and not a tag is
accepted (returned `True`) and the local checkout proceeds to the
checkout command; and whenever `_is_unique_tag` is reached through the
guard (the reference probes as a tag), its `is a branch, and not a tag`
and `does not appear to be a valid tag, branch or hash` verdicts are
unreachable. -/
theorem spec_c10_branch_not_tag_accepted :
    (∀ (env : GitEnv) (d : RepoDecl) (ref rn : List Char),
       (ref_is_branch env ref rn).1 = true →
       (ref_is_tag env ref).1 = false →
       (check_for_valid_ref env d ref rn).1 = POut.ok true) ∧
    (∀ (env : GitEnv) (ref rn : List Char),
       (ref_is_tag env ref).1 = true →
       (is_unique_tag env ref rn).1.2 ≠ msg_branch_not_tag ∧
       (is_unique_tag env ref rn).1.2 ≠ msg_undetermined) ∧
    (∀ (env : GitEnv) (d : RepoDecl),
       (ref_is_branch env (selected_ref d) []).1 = true →
       (ref_is_tag env (selected_ref d)).1 = false →
       (checkout_local_ref env d).1 = POut.ok () ∧
       GitCmd.checkoutRef (selected_ref d) ∈ (checkout_local_ref env d).2) := by
  have part1 : ∀ (env : GitEnv) (d : RepoDecl) (ref rn : List Char),
      (ref_is_branch env ref rn).1 = true →
      (ref_is_tag env ref).1 = false →
      (check_for_valid_ref env d ref rn).1 = POut.ok true := by
    intro env d ref rn hb hnt
    unfold check_for_valid_ref
    simp [hb, hnt]
  refine ⟨part1, ?_, ?_⟩
  · intro env ref rn ht
    unfold is_unique_tag
    by_cases hb : (ref_is_branch env ref rn).1
    · simp [ht, hb]
      refine ⟨by decide, by decide⟩
    · simp [ht, hb]
      refine ⟨by decide, by decide⟩
  · intro env d hb hnt
    have h1 := part1 env d (selected_ref d) [] hb hnt
    simp only [checkout_local_ref]
    cases hres : check_for_valid_ref env d (selected_ref d) [] with
    | mk res cs =>
        rw [hres] at h1
        simp at h1
        rw [h1]
        simp

/-- A declaration whose declared tag exists only as a branch in the
probed repository. -/
def d_c10 : RepoDecl :=
  { name := ("comp").data
  , url := LOCAL_PATH_INDICATOR
  , tag := ("rel").data }

/-- An environment in which every reference probes as a branch and
nothing probes as a tag. -/
def env_c10 : GitEnv :=
  { env0 with
    showref_branch := fun _ => 0 }

/-- C10 witness: the three parts applied at concrete environments — the
branch-probing declared tag is accepted and checked out, and in a
tag-probing environment the unreachable verdicts do not occur. -/
theorem spec_c10_witness :
    ((check_for_valid_ref env_c10 d_c10 (("rel").data) []).1
       = POut.ok true) ∧
    ((is_unique_tag env_c4 (("v1").data) []).1.2 ≠ msg_branch_not_tag ∧
     (is_unique_tag env_c4 (("v1").data) []).1.2 ≠ msg_undetermined) ∧
    ((checkout_local_ref env_c10 d_c10).1 = POut.ok () ∧
     GitCmd.checkoutRef (selected_ref d_c10)
       ∈ (checkout_local_ref env_c10 d_c10).2) :=
  ⟨spec_c10_branch_not_tag_accepted.1 env_c10 d_c10 (("rel").data) []
     (by decide) (by decide),
   spec_c10_branch_not_tag_accepted.2.1 env_c4 (("v1").data) [] (by decide),
   spec_c10_branch_not_tag_accepted.2.2 env_c10 d_c10
     (by decide) (by decide)⟩

/-- An environment whose head is at commit `deadbeef` and in which the
two distinct tag names `v1.0` and `v1.1` both resolve to that commit. -/
def env_c1 : GitEnv :=
  { env0 with
    log_hash_out := ("\"deadbeef\"\n").data,
    branch_vv_out := ("* master deadbeef first commit").data,
    revparse_commit := fun r =>
      if r = ("v1.0").data then (0, ("deadbeef\n").data)
      else if r = ("v1.1").data then (0, ("deadbeef\n").data)
      else (1, []) }

/-- A declaration of the tag `v1.0`. -/
def d_c1a : RepoDecl :=
  { name := ("comp").data
  , url := ("https://example/repo.git").data
  , tag := ("v1.0").data }

/-- A declaration of the tag `v1.1`. -/
def d_c1b : RepoDecl :=
  { name := ("comp").data
  , url := ("https://example/repo.git").data
  , tag := ("v1.1").data }

/-- C1 witness: the comparison theorem applied at the concrete aliasing
environment — both differently named declarations evaluate to
`STATUS_OK`. -/
theorem spec_c1_witness :
    (∃ st, (check_sync_logic env_c1 d_c1a (("/base/repo").data)
        ({} : ExternalStatus) (("/start").data)).1 = POut.ok st ∧
       st.sync_state =
         (if current_hash env_c1 = pyStrip (("deadbeef\n").data)
          then SyncState.STATUS_OK else SyncState.MODEL_MODIFIED)) ∧
    (∃ st1 st2,
       (check_sync_logic env_c1 d_c1a (("/base/repo").data)
          ({} : ExternalStatus) (("/start").data)).1 = POut.ok st1 ∧
       (check_sync_logic env_c1 d_c1b (("/base/repo").data)
          ({} : ExternalStatus) (("/start").data)).1 = POut.ok st2 ∧
       st1.sync_state = SyncState.STATUS_OK ∧
       st2.sync_state = SyncState.STATUS_OK) :=
  ⟨spec_c1_sync_compares_resolved_hashes.1 env_c1 d_c1a
     (("/base/repo").data) ({} : ExternalStatus) (("/start").data)
     (("v1.0").data) (("master").data) (("deadbeef\n").data)
     (by decide) (by decide) (by decide) (by decide),
   spec_c1_sync_compares_resolved_hashes.2 env_c1 d_c1a d_c1b
     (("/base/repo").data) ({} : ExternalStatus) (("/start").data)
     (("v1.0").data) (("v1.1").data) (("master").data) (("deadbeef\n").data)
     (by decide) (by decide) (by decide) (by decide) (by decide)
     (by decide) (by decide) (by decide)⟩

/-- C5 (amended): the synthesized remote-binding name is deterministic in
the URL: it is the stripped second-to-last path segment, an underscore,
and the verbatim last path segment. The punctuation list is stripped from
the second-to-last segment only, so the name never contains a path
separator (`/` cannot survive either side), but metacharacters in the
last segment are kept (see the counterexample); for
`https://example/repo.git` the name is `example_repo.git`. -/
theorem spec_c5_remote_name_shape :
    (∀ (durl dname repo base : List Char) (rest : List (List Char)),
       (splitOnSlash (processed_url durl dname)).reverse
         = repo :: base :: rest →
       create_remote_name durl dname
         = POut.ok (strip_punct base ++ '_' :: repo) ∧
       (∀ c ∈ strip_punct base, c ∉ badChars) ∧
       '/' ∉ strip_punct base ++ '_' :: repo) ∧
    create_remote_name (("https://example/repo.git").data) (("comp").data)
      = POut.ok (("example_repo.git").data) := by
  constructor
  · intro durl dname repo base rest hsp
    have hbase : base ∈ splitOnSlash (processed_url durl dname) := by
      rw [← List.mem_reverse, hsp]
      exact List.mem_cons_of_mem _ (List.mem_cons_self _ _)
    have hrepo : repo ∈ splitOnSlash (processed_url durl dname) := by
      rw [← List.mem_reverse, hsp]
      exact List.mem_cons_self _ _
    refine ⟨?_, ?_, ?_⟩
    · unfold create_remote_name
      rw [hsp]
    · intro c hc
      exact (strip_punct_mem base c hc).2
    · intro hmem
      rcases List.mem_append.mp hmem with h1 | h1
      · exact (strip_punct_mem base '/' h1).2 (by decide)
      · rcases List.mem_cons.mp h1 with h2 | h2
        · exact absurd h2 (by decide)
        · exact splitOnSlashAux_no_slash (processed_url durl dname) []
            (by simp) repo hrepo h2
  · decide

/-- C5 counterexample: a URL whose last path segment carries a shell
metacharacter (`;`) yields a remote name that still contains it — the
stripping is applied to the second-to-last segment only, so the claimed
guarantee that the name never contains a shell metacharacter fails. -/
theorem spec_c5_counterexample :
    create_remote_name (("https://example/repo;x").data) (("comp").data)
      = POut.ok (("example_repo;x").data) ∧
    ';' ∈ (("example_repo;x").data) ∧
    ';' ∈ badChars := by
  refine ⟨?_, ?_, ?_⟩ <;> decide

/-- C5 witness: the shape theorem applied at the concrete scenario URL. -/
theorem spec_c5_witness :
    create_remote_name (("https://example/repo.git").data) (("comp").data)
      = POut.ok (strip_punct (("example").data) ++ '_' :: ("repo.git").data) ∧
    (∀ c ∈ strip_punct (("example").data), c ∉ badChars) ∧
    '/' ∉ strip_punct (("example").data) ++ '_' :: ("repo.git").data :=
  spec_c5_remote_name_shape.1 (("https://example/repo.git").data)
    (("comp").data) (("repo.git").data) (("example").data) [] (by decide)

theorem check_for_valid_ref_no_add (env : GitEnv) (d : RepoDecl)
    (ref rn : List Char) :
    ∀ n u, GitCmd.remoteAdd n u ∉ (check_for_valid_ref env d ref rn).2 := by
  intro n u
  unfold check_for_valid_ref is_unique_tag ref_is_tag ref_is_branch
    ref_is_local_branch ref_is_remote_branch ref_is_hash git_showref_tag
    git_showref_branch git_lsremote_branch git_revparse_commit
  by_cases hrn : rn = [] <;> simp [hrn] <;> split_ifs <;> simp

/-- C6: remote-binding creation in `_checkout_external_ref` is idempotent
by URL — when some configured binding already carries the declared URL,
that binding name is reused and the binding list is unchanged (no
`git remote add` is issued); only when no binding matches is a fresh name
synthesized and registered, exactly once; and a second invocation on the
resulting bindings registers nothing further. -/
theorem spec_c6_remote_binding_idempotent :
    (∀ (env : GitEnv) (bs : List (List Char × List Char)) (d : RepoDecl)
       (nm : List Char),
       wf_bindings bs → first_match bs d.url = some nm →
       (checkout_external_ref env bs d).2.1 = bs ∧
       (∀ n u, GitCmd.remoteAdd n u ∉ (checkout_external_ref env bs d).2.2) ∧
       GitCmd.fetch nm ∈ (checkout_external_ref env bs d).2.2) ∧
    (∀ (env : GitEnv) (bs : List (List Char × List Char)) (d : RepoDecl)
       (rn : List Char),
       wf_bindings bs → first_match bs d.url = none →
       create_remote_name d.url d.name = POut.ok rn →
       (checkout_external_ref env bs d).2.1 = bs ++ [(rn, d.url)] ∧
       GitCmd.remoteAdd rn d.url ∈ (checkout_external_ref env bs d).2.2) ∧
    (∀ (env env2 : GitEnv) (bs : List (List Char × List Char))
       (d : RepoDecl) (rn : List Char),
       wf_bindings bs → wf_token d.url →
       first_match bs d.url = none →
       create_remote_name d.url d.name = POut.ok rn →
       (checkout_external_ref env2 (bs ++ [(rn, d.url)]) d).2.1
         = bs ++ [(rn, d.url)]) := by
  have part1 : ∀ (env : GitEnv) (bs : List (List Char × List Char))
      (d : RepoDecl) (nm : List Char),
      wf_bindings bs → first_match bs d.url = some nm →
      (checkout_external_ref env bs d).2.1 = bs ∧
      (∀ n u, GitCmd.remoteAdd n u ∉ (checkout_external_ref env bs d).2.2) ∧
      GitCmd.fetch nm ∈ (checkout_external_ref env bs d).2.2 := by
    intro env bs d nm hwf hfm
    have hnm : nm ≠ [] :=
      ((hwf (nm, d.url) (first_match_mem bs d.url nm hfm)).1).1
    have hdet : determine_remote_name (render_remote_verbose bs) d.url
        = POut.ok nm := by
      rw [determine_render d.url bs hwf, hfm]
      rfl
    simp only [checkout_external_ref, hdet, if_neg hnm]
    cases hcv : check_for_valid_ref env d (selected_ref d) nm with
    | mk res cs =>
        have hna := check_for_valid_ref_no_add env d (selected_ref d) nm
        rw [hcv] at hna
        cases res with
        | ok b =>
            refine ⟨rfl, ?_, ?_⟩
            · intro n u
              simp [hna n u]
            · simp
        | fatal m =>
            refine ⟨rfl, ?_, ?_⟩
            · intro n u
              simp [hna n u]
            · simp
        | pyerr =>
            refine ⟨rfl, ?_, ?_⟩
            · intro n u
              simp [hna n u]
            · simp
  refine ⟨part1, ?_, ?_⟩
  · intro env bs d rn hwf hfm hcr
    have hdet : determine_remote_name (render_remote_verbose bs) d.url
        = POut.ok [] := by
      rw [determine_render d.url bs hwf, hfm]
      rfl
    simp only [checkout_external_ref, hdet, hcr, if_true]
    rcases hcv : check_for_valid_ref env d (selected_ref d) rn with ⟨res, cs⟩
    cases res with
    | ok b => exact ⟨rfl, by simp⟩
    | fatal m => exact ⟨rfl, by simp⟩
    | pyerr => exact ⟨rfl, by simp⟩
  · intro env env2 bs d rn hwf hurl hfm hcr
    have hwf2 : wf_bindings (bs ++ [(rn, d.url)]) := by
      intro p hp
      rcases List.mem_append.mp hp with h1 | h1
      · exact hwf p h1
      · simp at h1
        rw [h1]
        exact ⟨create_remote_name_wf d.url d.name rn hurl.2 hcr, hurl⟩
    have hfm2 := first_match_append bs d.url rn hfm
    exact (part1 env2 (bs ++ [(rn, d.url)]) d rn hwf2 hfm2).1

/-- A declaration of branch `release` at the scenario URL. -/
def d_c6 : RepoDecl :=
  { name := ("comp").data
  , url := ("https://example/repo.git").data
  , branch := ("release").data }

/-- Configured bindings among which one carries the declared URL. -/
def bs_match : List (List Char × List Char) :=
  [(("origin").data, ("https://x/y").data),
   (("ext").data, ("https://example/repo.git").data)]

/-- Configured bindings none of which carries the declared URL. -/
def bs_nomatch : List (List Char × List Char) :=
  [(("origin").data, ("https://x/y").data)]

/-- C6 witness: the idempotence theorem applied at concrete bindings —
reuse when a binding matches, a single registration when none does, and
no further registration on the repeated invocation. -/
theorem spec_c6_witness :
    ((checkout_external_ref env0 bs_match d_c6).2.1 = bs_match ∧
     (∀ n u, GitCmd.remoteAdd n u
        ∉ (checkout_external_ref env0 bs_match d_c6).2.2) ∧
     GitCmd.fetch (("ext").data)
        ∈ (checkout_external_ref env0 bs_match d_c6).2.2) ∧
    ((checkout_external_ref env0 bs_nomatch d_c6).2.1
        = bs_nomatch ++ [(("example_repo.git").data, d_c6.url)] ∧
     GitCmd.remoteAdd (("example_repo.git").data) d_c6.url
        ∈ (checkout_external_ref env0 bs_nomatch d_c6).2.2) ∧
    (checkout_external_ref env0
        (bs_nomatch ++ [(("example_repo.git").data, d_c6.url)]) d_c6).2.1
      = bs_nomatch ++ [(("example_repo.git").data, d_c6.url)] :=
  ⟨spec_c6_remote_binding_idempotent.1 env0 bs_match d_c6 (("ext").data)
     (by unfold wf_bindings wf_token; decide) (by decide),
   spec_c6_remote_binding_idempotent.2.1 env0 bs_nomatch d_c6
     (("example_repo.git").data)
     (by unfold wf_bindings wf_token; decide) (by decide) (by decide),
   spec_c6_remote_binding_idempotent.2.2 env0 env0 bs_nomatch d_c6
     (("example_repo.git").data)
     (by unfold wf_bindings wf_token; decide)
     (by unfold wf_token; decide) (by decide) (by decide)⟩

theorem dev_msg_contains (a l out : List Char) :
    containsSub l
      (a ++ (("\nref:\n").data ++
        (l ++ (("\ngit_output\n").data ++ (out ++ ['\n']))))) = true ∧
    containsSub out
      (a ++ (("\nref:\n").data ++
        (l ++ (("\ngit_output\n").data ++ (out ++ ['\n']))))) = true := by
  constructor
  · apply containsSub_append_left
    apply containsSub_append_left
    exact containsSub_self_append l _
  · apply containsSub_append_left
    apply containsSub_append_left
    apply containsSub_append_left
    apply containsSub_append_left
    exact containsSub_self_append out ['\n']

/-- C7 (amended): when the active line of the branch listing contains one
of the dispatch keywords (`detached at`, `detached from`, `[`) but the
corresponding pattern fails to match, `_current_ref` aborts with a
`fatal_error` whose diagnostic carries the raw active line and the full
listing output. (An active line with no keyword is taken as a plain
branch line; without a second token it dies with a bare `IndexError`
carrying no diagnostic — see the counterexample.) -/
theorem spec_c7_keyword_mismatch_fatal :
    ∀ (gitOutput l : List Char),
      active_line (splitLines gitOutput) = l → l ≠ [] →
      ((containsSub (("detached at").data) l = true →
        re_detached_at_search l = none →
        current_ref_of_output gitOutput
          = POut.fatal (dev_err_at_msg l gitOutput) ∧
        containsSub l (dev_err_at_msg l gitOutput) = true ∧
        containsSub gitOutput (dev_err_at_msg l gitOutput) = true) ∧
       (containsSub (("detached at").data) l = false →
        containsSub (("detached from").data) l = true →
        re_detached_from_search l = none →
        current_ref_of_output gitOutput
          = POut.fatal (dev_err_from_msg l gitOutput) ∧
        containsSub l (dev_err_from_msg l gitOutput) = true ∧
        containsSub gitOutput (dev_err_from_msg l gitOutput) = true) ∧
       (containsSub (("detached at").data) l = false →
        containsSub (("detached from").data) l = false →
        containsSub ['['] l = true →
        re_tracking_search l = none →
        current_ref_of_output gitOutput
          = POut.fatal (dev_err_track_msg l gitOutput) ∧
        containsSub l (dev_err_track_msg l gitOutput) = true ∧
        containsSub gitOutput (dev_err_track_msg l gitOutput) = true)) := by
  intro gitOutput l hal hne
  have hemp : l.isEmpty = false := by
    cases l with
    | nil => exact absurd rfl hne
    | cons _ _ => rfl
  refine ⟨?_, ?_, ?_⟩
  · intro hat hsearch
    refine ⟨?_, (dev_msg_contains _ l gitOutput).1,
            (dev_msg_contains _ l gitOutput).2⟩
    simp [current_ref_of_output, hal, hemp, hat, hsearch, dev_err_at_msg]
  · intro hat hfrom hsearch
    refine ⟨?_, (dev_msg_contains _ l gitOutput).1,
            (dev_msg_contains _ l gitOutput).2⟩
    simp [current_ref_of_output, hal, hemp, hat, hfrom, hsearch,
          dev_err_from_msg]
  · intro hat hfrom htrk hsearch
    refine ⟨?_, (dev_msg_contains _ l gitOutput).1,
            (dev_msg_contains _ l gitOutput).2⟩
    simp [current_ref_of_output, hal, hemp, hat, hfrom, htrk, hsearch,
          dev_err_track_msg]

/-- C7 counterexample: the branch-listing text `*` has an active line
that matches none of the head-state patterns — no keyword pattern
applies and there is no second whitespace-separated token for the plain
branch fallback — yet the parser does not abort with the diagnostic
`fatal_error`: `ref.split()[1]` raises a bare `IndexError`. -/
theorem spec_c7_counterexample :
    current_ref_of_output ['*'] = POut.pyerr ∧
    active_line (splitLines ['*']) = ['*'] ∧
    containsSub (("detached at").data) ['*'] = false ∧
    containsSub (("detached from").data) ['*'] = false ∧
    containsSub ['['] ['*'] = false ∧
    re_detached_at_search ['*'] = none ∧
    re_detached_from_search ['*'] = none ∧
    re_tracking_search ['*'] = none ∧
    (pySplit ['*']).get? 1 = none := by
  refine ⟨?_, ?_, ?_, ?_, ?_, ?_, ?_, ?_, ?_⟩ <;> decide

/-- C7 witness: the amended theorem applied at a listing whose active
line contains `detached at` but defeats the pattern (`~` cannot occur in
the captured name). -/
theorem spec_c7_witness :
    current_ref_of_output (("* (HEAD detached at bad~name)").data)
      = POut.fatal (dev_err_at_msg (("* (HEAD detached at bad~name)").data)
          (("* (HEAD detached at bad~name)").data)) ∧
    containsSub (("* (HEAD detached at bad~name)").data)
      (dev_err_at_msg (("* (HEAD detached at bad~name)").data)
        (("* (HEAD detached at bad~name)").data)) = true ∧
    containsSub (("* (HEAD detached at bad~name)").data)
      (dev_err_at_msg (("* (HEAD detached at bad~name)").data)
        (("* (HEAD detached at bad~name)").data)) = true :=
  (spec_c7_keyword_mismatch_fatal (("* (HEAD detached at bad~name)").data)
    (("* (HEAD detached at bad~name)").data)
    (by decide) (by decide)).1 (by decide) (by decide)

set_option maxRecDepth 8000 in
/-- C3 (code divergence): the active line
`* (HEAD detached from origin/feature-2) abc123 fix detached at handling`
is in the detached-from form — `RE_DETACHED_FROM` matches it with hash
capture `abc123` — yet `_current_ref` aborts with the `DEV_ERROR`
detached-at diagnostic, because the commit subject contains the text
`detached at` and the substring dispatch runs before the patterns. The
two scenario lines of the claim themselves parse as specified. -/
theorem spec_c3_detached_parsing :
    re_detached_from_search
      (("* (HEAD detached from origin/feature-2) abc123 fix detached at handling").data)
      = some (("abc123").data) ∧
    current_ref_of_output
      (("* (HEAD detached from origin/feature-2) abc123 fix detached at handling").data)
      = POut.fatal (dev_err_at_msg
          (("* (HEAD detached from origin/feature-2) abc123 fix detached at handling").data)
          (("* (HEAD detached from origin/feature-2) abc123 fix detached at handling").data)) ∧
    current_ref_of_output (("* (HEAD detached at origin/feature-2)").data)
      = POut.ok (("origin/feature-2").data) ∧
    current_ref_of_output (("* (HEAD detached from origin/feature-2) abc123").data)
      = POut.ok (("abc123").data) := by
  refine ⟨?_, ?_, ?_, ?_⟩ <;> decide
